import Mathlib

/-!
Shallow embedding of the session-scoped data model of `src/app.py`
(Viatra demo app: consumer health records and hospital registry).

The app keeps all state in `st.session_state`; each UI button handler
performs one mutation on one collection.  The handlers are inlined in the
UI code; here each handler body is translated to a pure function on the
state it touches.  Streamlit/pandas specifics are modelled as follows:
a `pd.DataFrame` of rows is a `List` of records (boolean-mask filtering
`df[df["id"] != pid]` is `List.filter`, `pd.concat(..., ignore_index=True)`
is list append, `df.tail(n)` is the last `n` elements,
`df.sort_values(by=[...])` is a sort of the rows by the lexicographic
string key); a Python dict is an association list (when insertion order of
keys matters) or a function to `Option` (for keyed lookup); Python string
`split(",")`, `strip()` and string comparison are translated below as
structural recursion over the character list, following the Python
semantics (comparison is lexicographic by code point).  UI-only session
keys (lab_text, challenges, notes, chat, micro_consults, pilot_requests)
and the widgets themselves are outside the claims and are omitted.
-/

namespace Viatra

/-! ### Python string primitives -/

/-- Python whitespace characters stripped by `str.strip()` (ASCII part). -/
def isPySpace (c : Char) : Bool :=
  c == ' ' || c == '\t' || c == '\n' || c == '\r' || c == '\x0b' || c == '\x0c'

/-- Python `s.strip()`: drop leading and trailing whitespace. -/
def pyStrip (s : String) : String :=
  String.mk (((s.data.dropWhile isPySpace).reverse.dropWhile isPySpace).reverse)

/-- Helper for `pySplitComma`: split a character list at every comma,
`acc` holding the (reversed) current fragment. -/
def splitCommaAux : List Char → List Char → List String
  | [], acc => [String.mk acc.reverse]
  | c :: cs, acc =>
    if c = ',' then String.mk acc.reverse :: splitCommaAux cs []
    else splitCommaAux cs (c :: acc)

/-- Python `s.split(",")`: e.g. `""` gives `[""]`, `"a,,b"` gives
`["a", "", "b"]`. -/
def pySplitComma (s : String) : List String :=
  splitCommaAux s.data []

/-- The idiom `[x.strip() for x in s.split(",") if x.strip()]` used by the
Update Passport, Save Med List and Generate Rx handlers: split on commas,
trim each fragment, drop fragments that are empty after trimming. -/
def splitClean (s : String) : List String :=
  ((pySplitComma s).map pyStrip).filter (fun t => t ≠ "")

/-- Lexicographic order on character lists by code point, the order Python
uses to compare strings (`<=` version; a proper prefix sorts first). -/
def charListLeb : List Char → List Char → Bool
  | [], _ => true
  | _ :: _, [] => false
  | a :: as, b :: bs =>
    if a < b then true
    else if b < a then false
    else charListLeb as bs

/-- Python string `<=`. -/
def pyLeb (a b : String) : Bool := charListLeb a.data b.data

/-- Python string `<` (the strict version of `pyLeb`). -/
def pyLtb (a b : String) : Bool := !(pyLeb b a)

/-! ### Consumer side: vitals log -/

/-- One row of the per-profile vitals DataFrame (columns of the row built
by the Add Entry handler). -/
structure VitalsEntry where
  date : String
  time : String
  systolic : Int
  diastolic : Int
  hr : Int
  glucose : Int
deriving DecidableEq, Repr

/-- The Add Entry handler: `pd.concat([df, one_row], ignore_index=True)` —
the new row is appended at the end of the vitals log.  The handler body
performs no range checks on the values. -/
def append_entry (log : List VitalsEntry) (d t : String) (sys dia hr glu : Int) :
    List VitalsEntry :=
  log ++ [{ date := d, time := t, systolic := sys, diastolic := dia, hr := hr, glucose := glu }]

/-- `df.tail(n)`: the last `n` rows in order (all rows when fewer). -/
def tail (log : List VitalsEntry) (n : Nat) : List VitalsEntry :=
  log.drop (log.length - n)

/-- A whole sequence of Add Entry calls, folded over the log. -/
def apply_appends (log : List VitalsEntry) (es : List VitalsEntry) : List VitalsEntry :=
  es.foldl (fun l e => append_entry l e.date e.time e.systolic e.diastolic e.hr e.glucose) log

/-! ### Consumer side: passport, medications, profiles -/

/-- The per-profile health passport document. -/
structure Passport where
  immunizations : List String
  allergies : List String
  conditions : List String
deriving DecidableEq, Repr

/-- The Update Passport handler: each text box is split, trimmed and
cleaned, and the whole passport dict of the active profile is replaced
(the previous value `old` is discarded, as in the source). -/
def update_passport (_old : Passport) (imms alls cond : String) : Passport :=
  { immunizations := splitClean imms
    allergies := splitClean alls
    conditions := splitClean cond }

/-- The Save Med List handler: full replacement of the medication list by
the cleaned fragments of the text box. -/
def save_medications (_old : List String) (meds_str : String) : List String :=
  splitClean meds_str

/-- The JSON payload `{"profile": active, **passport[active]}` offered by
the Download Passport button. -/
structure PassportDoc where
  profile : String
  immunizations : List String
  allergies : List String
  conditions : List String
deriving DecidableEq, Repr

/-- Value of the `profiles` dict: `{"dob": None, "gender": None}`. -/
structure ProfileAttrs where
  dob : Option String
  gender : Option String
deriving DecidableEq, Repr

/-- The consumer-facing part of `st.session_state`.  `profiles` is an
association list so that the insertion order of dict keys is kept; the
per-profile dicts are keyed lookups. -/
structure ConsumerState where
  active_profile : String
  profiles : List (String × ProfileAttrs)
  vitals : String → Option (List VitalsEntry)
  meds : String → Option (List String)
  records : String → Option (List String)
  passport : String → Option Passport

/-- `_init_state`: the session starts with the single profile `"Me"`,
which is active, and empty sub-collections for it. -/
def init_state : ConsumerState where
  active_profile := "Me"
  profiles := [("Me", { dob := none, gender := none })]
  vitals := fun k => if k = "Me" then some [] else none
  meds := fun k => if k = "Me" then some [] else none
  records := fun k => if k = "Me" then some [] else none
  passport := fun k =>
    if k = "Me" then some { immunizations := [], allergies := [], conditions := [] } else none

/-- The Add Profile handler: guarded by
`new_name and new_name not in st.session_state.profiles` (empty string is
falsy), it creates the profile entry and its four sub-collections;
otherwise nothing happens. -/
def add_profile (s : ConsumerState) (new_name : String) : ConsumerState :=
  if new_name ≠ "" ∧ new_name ∉ s.profiles.map Prod.fst then
    { active_profile := s.active_profile
      profiles := s.profiles ++ [(new_name, { dob := none, gender := none })]
      vitals := fun k => if k = new_name then some [] else s.vitals k
      meds := fun k => if k = new_name then some [] else s.meds k
      records := fun k => if k = new_name then some [] else s.records k
      passport := fun k =>
        if k = new_name then some { immunizations := [], allergies := [], conditions := [] }
        else s.passport k }
  else s

/-- The Active profile selectbox: sets `st.session_state.active_profile`. -/
def select_active (s : ConsumerState) (name : String) : ConsumerState :=
  { s with active_profile := name }

/-- The passport download payload: reads the passport of the active
profile and pairs it with the profile name; `none` models the `KeyError`
case of `passport[active]` (never reached from the UI). -/
def export_passport (s : ConsumerState) : Option PassportDoc :=
  match s.passport s.active_profile with
  | some p =>
    some { profile := s.active_profile
           immunizations := p.immunizations
           allergies := p.allergies
           conditions := p.conditions }
  | none => none

/-! ### Hospital side: patient registry -/

/-- One row of the `patients` DataFrame. -/
structure PatientRecord where
  id : String
  name : String
  age : Int
  sex : String
  allergies : String
  comorbidities : String
deriving DecidableEq, Repr

/-- The Add / Update Patient handler: `df = df[df["id"] != pid]` keeps the
rows whose id differs, then `pd.concat` appends the new row at the end.
The handler body performs no checks on `age` or `sex`. -/
def upsert_patient (df : List PatientRecord) (pid pname : String) (age : Int)
    (psex pall pcom : String) : List PatientRecord :=
  (df.filter (fun r => r.id != pid)) ++
    [{ id := pid, name := pname, age := age, sex := psex, allergies := pall,
       comorbidities := pcom }]

/-- Arguments of one Add / Update Patient click. -/
structure UpsertArgs where
  id : String
  name : String
  age : Int
  sex : String
  allergies : String
  comorbidities : String
deriving DecidableEq, Repr

/-- A whole sequence of upserts, starting from the initial empty
`patients` DataFrame of `_init_state`. -/
def apply_upserts (calls : List UpsertArgs) : List PatientRecord :=
  calls.foldl
    (fun df c => upsert_patient df c.id c.name c.age c.sex c.allergies c.comorbidities) []

/-- No two rows of the registry share an id. -/
def uniqueIds (df : List PatientRecord) : Prop :=
  (df.map PatientRecord.id).Nodup

/-! ### Hospital side: roster -/

/-- One row of the `roster` DataFrame (`date` is an ISO `yyyy-mm-dd`
string, `shift` the selectbox label). -/
structure RosterEntry where
  date : String
  shift : String
  doctor : String
deriving DecidableEq, Repr

/-- The Add to Roster handler: plain append. -/
def add_roster_entry (roster : List RosterEntry) (d s doc : String) : List RosterEntry :=
  roster ++ [{ date := d, shift := s, doctor := doc }]

/-- The ordering used by `roster.sort_values(by=["date","shift"])`: by
date, ties broken by the literal string form of the shift label. -/
def rosterLE (x y : RosterEntry) : Prop :=
  pyLtb x.date y.date = true ∨ (x.date = y.date ∧ pyLeb x.shift y.shift = true)

instance : DecidableRel rosterLE := fun x y =>
  inferInstanceAs
    (Decidable (pyLtb x.date y.date = true ∨ (x.date = y.date ∧ pyLeb x.shift y.shift = true)))

/-- The roster display `st.dataframe(roster.sort_values(by=["date","shift"]))`:
the rows rearranged into ascending `(date, shift)` string order. -/
def list_roster_sorted (roster : List RosterEntry) : List RosterEntry :=
  List.insertionSort rosterLE roster

/-! ### Order lemmas for the Python string comparison -/

theorem charListLeb_cons_iff (a b : Char) (as bs : List Char) :
    charListLeb (a :: as) (b :: bs) = true ↔ (a < b ∨ (a = b ∧ charListLeb as bs = true)) := by
  simp only [charListLeb]
  split_ifs with h1 h2
  · simp [h1]
  · constructor
    · intro h; exact absurd h (by simp)
    · rintro (h | ⟨rfl, -⟩)
      · exact absurd h h1
      · exact absurd h2 (lt_irrefl a)
  · have hab : a = b := le_antisymm (not_lt.mp h2) (not_lt.mp h1)
    subst hab
    simp [lt_irrefl]

theorem charListLeb_total : ∀ a b : List Char, charListLeb a b = true ∨ charListLeb b a = true
  | [], _ => Or.inl rfl
  | _ :: _, [] => Or.inr rfl
  | a :: as, b :: bs => by
    rw [charListLeb_cons_iff, charListLeb_cons_iff]
    rcases lt_trichotomy a b with h | h | h
    · exact Or.inl (Or.inl h)
    · rcases charListLeb_total as bs with ih | ih
      · exact Or.inl (Or.inr ⟨h, ih⟩)
      · exact Or.inr (Or.inr ⟨h.symm, ih⟩)
    · exact Or.inr (Or.inl h)

theorem charListLeb_trans : ∀ a b c : List Char,
    charListLeb a b = true → charListLeb b c = true → charListLeb a c = true
  | [], _, _, _, _ => rfl
  | _ :: _, [], _, h, _ => by simp [charListLeb] at h
  | _ :: _, _ :: _, [], _, h => by simp [charListLeb] at h
  | a :: as, b :: bs, c :: cs, h1, h2 => by
    rw [charListLeb_cons_iff] at h1 h2 ⊢
    rcases h1 with h1 | ⟨rfl, h1⟩
    · rcases h2 with h2 | ⟨rfl, h2⟩
      · exact Or.inl (h1.trans h2)
      · exact Or.inl h1
    · rcases h2 with h2 | ⟨rfl, h2⟩
      · exact Or.inl h2
      · exact Or.inr ⟨rfl, charListLeb_trans as bs cs h1 h2⟩

theorem charListLeb_antisymm : ∀ a b : List Char,
    charListLeb a b = true → charListLeb b a = true → a = b
  | [], [], _, _ => rfl
  | [], _ :: _, _, h => by simp [charListLeb] at h
  | _ :: _, [], h, _ => by simp [charListLeb] at h
  | a :: as, b :: bs, h1, h2 => by
    rw [charListLeb_cons_iff] at h1 h2
    rcases h1 with h1 | ⟨rfl, h1⟩
    · rcases h2 with h2 | ⟨e, h2⟩
      · exact absurd (h1.trans h2) (lt_irrefl a)
      · exact absurd (e ▸ h1) (lt_irrefl b)
    · rcases h2 with h2 | ⟨-, h2⟩
      · exact absurd h2 (lt_irrefl a)
      · rw [charListLeb_antisymm as bs h1 h2]

theorem pyLeb_total (a b : String) : pyLeb a b = true ∨ pyLeb b a = true :=
  charListLeb_total a.data b.data

theorem pyLeb_trans {a b c : String} (h1 : pyLeb a b = true) (h2 : pyLeb b c = true) :
    pyLeb a c = true :=
  charListLeb_trans a.data b.data c.data h1 h2

theorem pyLeb_antisymm {a b : String} (h1 : pyLeb a b = true) (h2 : pyLeb b a = true) :
    a = b := by
  have h := charListLeb_antisymm a.data b.data h1 h2
  cases a
  cases b
  exact congrArg String.mk h

theorem pyLtb_eq_true_iff {a b : String} : pyLtb a b = true ↔ pyLeb b a = false := by
  simp [pyLtb]

theorem pyLtb_trans {a b c : String} (h1 : pyLtb a b = true) (h2 : pyLtb b c = true) :
    pyLtb a c = true := by
  rw [pyLtb_eq_true_iff] at h1 h2 ⊢
  cases hca : pyLeb c a with
  | false => rfl
  | true =>
    rcases pyLeb_total b a with h | h
    · rw [h] at h1; exact Bool.noConfusion h1
    · have hcb : pyLeb c b = true := pyLeb_trans hca h
      rw [hcb] at h2; exact Bool.noConfusion h2

instance : IsTotal RosterEntry rosterLE where
  total x y := by
    unfold rosterLE
    by_cases hd : x.date = y.date
    · rcases pyLeb_total x.shift y.shift with h | h
      · exact Or.inl (Or.inr ⟨hd, h⟩)
      · exact Or.inr (Or.inr ⟨hd.symm, h⟩)
    · rcases pyLeb_total x.date y.date with h | h
      · refine Or.inl (Or.inl ?_)
        rw [pyLtb_eq_true_iff]
        cases hyx : pyLeb y.date x.date with
        | false => rfl
        | true => exact absurd (pyLeb_antisymm h hyx) hd
      · refine Or.inr (Or.inl ?_)
        rw [pyLtb_eq_true_iff]
        cases hxy : pyLeb x.date y.date with
        | false => rfl
        | true => exact absurd (pyLeb_antisymm hxy h) hd

instance : IsTrans RosterEntry rosterLE where
  trans x y z hxy hyz := by
    unfold rosterLE at hxy hyz ⊢
    rcases hxy with h1 | ⟨e1, h1⟩
    · rcases hyz with h2 | ⟨e2, h2⟩
      · exact Or.inl (pyLtb_trans h1 h2)
      · exact Or.inl (e2 ▸ h1)
    · rcases hyz with h2 | ⟨e2, h2⟩
      · exact Or.inl (e1 ▸ h2)
      · exact Or.inr ⟨e1.trans e2, pyLeb_trans h1 h2⟩

/-! ### Helper lemmas about the patient registry -/

theorem upsert_getLast (df : List PatientRecord) (pid pname : String) (age : Int)
    (psex pall pcom : String) :
    (upsert_patient df pid pname age psex pall pcom).getLast?
      = some { id := pid, name := pname, age := age, sex := psex, allergies := pall,
               comorbidities := pcom } := by
  unfold upsert_patient
  exact List.getLast?_concat _

theorem upsert_filter_ne (df : List PatientRecord) (pid pname : String) (age : Int)
    (psex pall pcom : String) :
    ((upsert_patient df pid pname age psex pall pcom).filter (fun r => r.id != pid))
      = df.filter (fun r => r.id != pid) := by
  unfold upsert_patient
  rw [List.filter_append]
  have h1 : (df.filter (fun r => r.id != pid)).filter (fun r => r.id != pid)
      = df.filter (fun r => r.id != pid) := by
    induction df with
    | nil => rfl
    | cons r rs ih =>
      by_cases h : r.id = pid <;> simp [List.filter_cons, h, ih]
  have h2 : List.filter (fun r => r.id != pid)
      [({ id := pid, name := pname, age := age, sex := psex, allergies := pall,
          comorbidities := pcom } : PatientRecord)] = [] := by
    simp
  rw [h1, h2, List.append_nil]

theorem upsert_filter_eq (df : List PatientRecord) (pid pname : String) (age : Int)
    (psex pall pcom : String) :
    ((upsert_patient df pid pname age psex pall pcom).filter (fun r => r.id == pid))
      = [{ id := pid, name := pname, age := age, sex := psex, allergies := pall,
           comorbidities := pcom }] := by
  unfold upsert_patient
  rw [List.filter_append]
  have h1 : (df.filter (fun r => r.id != pid)).filter (fun r => r.id == pid) = [] := by
    induction df with
    | nil => rfl
    | cons r rs ih =>
      by_cases h : r.id = pid <;> simp [List.filter_cons, h, ih]
  rw [h1]
  simp

theorem upsert_uniqueIds (df : List PatientRecord) (pid pname : String) (age : Int)
    (psex pall pcom : String) (h : uniqueIds df) :
    uniqueIds (upsert_patient df pid pname age psex pall pcom) := by
  unfold uniqueIds upsert_patient at *
  rw [List.map_append, List.nodup_append]
  refine ⟨((List.filter_sublist df).map PatientRecord.id).nodup h, by simp, ?_⟩
  intro x hx hx'
  simp only [List.map_cons, List.map_nil, List.mem_singleton] at hx'
  subst hx'
  simp only [List.mem_map, List.mem_filter] at hx
  rcases hx with ⟨r, ⟨_, hne⟩, hid⟩
  rw [hid] at hne
  simp at hne

/-! ### Claim theorems -/

/-- C1: every sequence of upsert_patient calls leaves the patient registry
without two records sharing an id; upserting removes any record with the
given id before appending, so a second upsert with the same id collapses
to the last call, whose record is the unique one for that id and sits at
the end of the store order. -/
theorem upsert_patient_unique_and_last_wins :
    (∀ calls : List UpsertArgs, uniqueIds (apply_upserts calls)) ∧
    (∀ (df : List PatientRecord) (pid n1 : String) (a1 : Int) (s1 al1 c1 : String)
        (n2 : String) (a2 : Int) (s2 al2 c2 : String),
        upsert_patient (upsert_patient df pid n1 a1 s1 al1 c1) pid n2 a2 s2 al2 c2
          = upsert_patient df pid n2 a2 s2 al2 c2) ∧
    (∀ (df : List PatientRecord) (pid pname : String) (age : Int) (psex pall pcom : String),
        ((upsert_patient df pid pname age psex pall pcom).filter (fun r => r.id == pid))
            = [{ id := pid, name := pname, age := age, sex := psex, allergies := pall,
                 comorbidities := pcom }] ∧
        (upsert_patient df pid pname age psex pall pcom).getLast?
            = some { id := pid, name := pname, age := age, sex := psex, allergies := pall,
                     comorbidities := pcom }) := by
  refine ⟨?_, ?_, ?_⟩
  · intro calls
    have key : ∀ (cs : List UpsertArgs) (df : List PatientRecord), uniqueIds df →
        uniqueIds (cs.foldl (fun df c =>
          upsert_patient df c.id c.name c.age c.sex c.allergies c.comorbidities) df) := by
      intro cs
      induction cs with
      | nil => exact fun df h => h
      | cons c cs ih =>
        intro df h
        exact ih _ (upsert_uniqueIds df c.id c.name c.age c.sex c.allergies c.comorbidities h)
    exact key calls [] List.nodup_nil
  · intro df pid n1 a1 s1 al1 c1 n2 a2 s2 al2 c2
    conv_lhs => rw [upsert_patient]
    rw [upsert_filter_ne, upsert_patient]
  · intro df pid pname age psex pall pcom
    exact ⟨upsert_filter_eq df pid pname age psex pall pcom,
           upsert_getLast df pid pname age psex pall pcom⟩

/-- C2 counterexample: calling the Add Entry handler directly with
systolic 79 (below the declared minimum of 80) does not fail and does not
leave the vitals log unchanged — the entry is appended. -/
theorem append_entry_systolic79_appends :
    append_entry [] "2024-01-01" "08:00" 79 80 72 95
        = [{ date := "2024-01-01", time := "08:00", systolic := 79, diastolic := 80,
             hr := 72, glucose := 95 }] ∧
    append_entry [] "2024-01-01" "08:00" 79 80 72 95 ≠ [] ∧
    (79 : Int) < 80 :=
  ⟨rfl, by decide, by decide⟩

/-- C2 amended: the Add Entry handler performs no bounds validation at
all — for every value of every vitals field, including out-of-range ones,
it appends exactly one entry holding those values at the end of the log
(bounds are enforced only by the UI number-input widgets); in particular
the boundary values systolic 80 and 220 also append. -/
theorem append_entry_unconditional_append :
    (∀ (log : List VitalsEntry) (d t : String) (sys dia hr glu : Int),
        (append_entry log d t sys dia hr glu).length = log.length + 1 ∧
        (append_entry log d t sys dia hr glu).take log.length = log ∧
        (append_entry log d t sys dia hr glu).getLast?
            = some { date := d, time := t, systolic := sys, diastolic := dia, hr := hr,
                     glucose := glu }) ∧
    (append_entry [] "2024-01-01" "08:00" 80 80 72 95).length = 1 ∧
    (append_entry [] "2024-01-01" "08:00" 220 80 72 95).length = 1 := by
  refine ⟨?_, rfl, rfl⟩
  intro log d t sys dia hr glu
  unfold append_entry
  refine ⟨by simp, ?_, List.getLast?_concat _⟩
  simp

/-- C3: update_passport splits each of its three text arguments on
commas, trims fragments, drops empty ones, and fully replaces the three
passport lists (independently of the previous passport); it is idempotent
under identical input, and "A, B" followed by "C" leaves only ["C"]. -/
theorem update_passport_replace_idempotent :
    (∀ (p q : Passport) (i a c : String), update_passport p i a c = update_passport q i a c) ∧
    (∀ (p : Passport) (i a c : String),
        update_passport (update_passport p i a c) i a c = update_passport p i a c) ∧
    splitClean "A, B" = ["A", "B"] ∧
    (∀ (p : Passport) (x y : String),
        (update_passport (update_passport p "A, B" x y) "C" x y).immunizations = ["C"]) ∧
    (∀ (p : Passport) (i a c : String),
        update_passport p i a c
          = { immunizations := splitClean i, allergies := splitClean a,
              conditions := splitClean c }) :=
  ⟨fun _ _ _ _ _ => rfl, fun _ _ _ _ => rfl, by decide,
   fun _ _ _ => by show splitClean "C" = ["C"]; decide, fun _ _ _ _ => rfl⟩

/-- C4: tail returns exactly the last min(n, length) entries of the
vitals log in insertion order (all of them when fewer than n exist, the
empty list on an empty log), and appending never reorders or mutates the
entries already present — any sequence of appends just concatenates the
new entries at the end. -/
theorem vitals_tail_spec :
    (∀ (log : List VitalsEntry) (n : Nat),
        (tail log n).length = min n log.length ∧
        log.take (log.length - n) ++ tail log n = log) ∧
    (∀ n : Nat, tail [] n = []) ∧
    (∀ (log : List VitalsEntry) (d t : String) (sys dia hr glu : Int),
        (append_entry log d t sys dia hr glu).take log.length = log) ∧
    (∀ (log es : List VitalsEntry), apply_appends log es = log ++ es) := by
  refine ⟨?_, ?_, ?_, ?_⟩
  · intro log n
    constructor
    · simp only [tail, List.length_drop]
      omega
    · exact List.take_append_drop _ _
  · intro n
    simp [tail]
  · intro log d t sys dia hr glu
    unfold append_entry
    simp
  · intro log es
    induction es generalizing log with
    | nil => simp [apply_appends]
    | cons e es ih =>
      have h : apply_appends log (e :: es) = apply_appends (log ++ [e]) es := rfl
      rw [h, ih]
      simp

/-- C5: add_profile is a silent no-op on an empty or duplicate name;
otherwise it appends exactly one profile entry and creates its empty
vitals log, medication list, record list and default passport without
touching other profiles; calling it twice with the same name equals
calling it once (so the second call resets nothing). -/
theorem add_profile_spec :
    (∀ s : ConsumerState, add_profile s "" = s) ∧
    (∀ (s : ConsumerState) (name : String),
        name ∈ s.profiles.map Prod.fst → add_profile s name = s) ∧
    (∀ (s : ConsumerState) (name : String),
        name ≠ "" → name ∉ s.profiles.map Prod.fst →
          (add_profile s name).profiles
              = s.profiles ++ [(name, { dob := none, gender := none })] ∧
          (add_profile s name).vitals name = some [] ∧
          (add_profile s name).meds name = some [] ∧
          (add_profile s name).records name = some [] ∧
          (add_profile s name).passport name
              = some { immunizations := [], allergies := [], conditions := [] } ∧
          (∀ k, k ≠ name →
              (add_profile s name).vitals k = s.vitals k ∧
              (add_profile s name).meds k = s.meds k ∧
              (add_profile s name).records k = s.records k ∧
              (add_profile s name).passport k = s.passport k)) ∧
    (∀ (s : ConsumerState) (name : String),
        add_profile (add_profile s name) name = add_profile s name) := by
  refine ⟨?_, ?_, ?_, ?_⟩
  · intro s
    simp [add_profile]
  · intro s name hmem
    rw [add_profile, if_neg]
    rintro ⟨-, h⟩
    exact h hmem
  · intro s name h1 h2
    have e : add_profile s name
        = { active_profile := s.active_profile
            profiles := s.profiles ++ [(name, { dob := none, gender := none })]
            vitals := fun k => if k = name then some [] else s.vitals k
            meds := fun k => if k = name then some [] else s.meds k
            records := fun k => if k = name then some [] else s.records k
            passport := fun k =>
              if k = name then some { immunizations := [], allergies := [], conditions := [] }
              else s.passport k } := by
      rw [add_profile, if_pos ⟨h1, h2⟩]
    rw [e]
    refine ⟨rfl, by simp, by simp, by simp, by simp, ?_⟩
    intro k hk
    refine ⟨by simp [hk], by simp [hk], by simp [hk], by simp [hk]⟩
  · intro s name
    by_cases h : name ≠ "" ∧ name ∉ s.profiles.map Prod.fst
    · have hc : ¬ (name ≠ "" ∧ name ∉ (add_profile s name).profiles.map Prod.fst) := by
        rintro ⟨-, hmem⟩
        apply hmem
        rw [add_profile, if_pos h]
        simp
      conv_lhs => rw [add_profile]
      rw [if_neg hc]
    · have e : add_profile s name = s := by rw [add_profile, if_neg h]
      rw [e]
      exact e

/-- C5 witness: adding the fresh profile "Sam" to the initial state
appends it to the registry and creates its empty vitals log. -/
theorem add_profile_spec_witness :
    (add_profile init_state "Sam").profiles
        = init_state.profiles ++ [("Sam", { dob := none, gender := none })] ∧
    (add_profile init_state "Sam").vitals "Sam" = some [] :=
  ⟨(add_profile_spec.2.2.1 init_state "Sam" (by decide) (by decide)).1,
   (add_profile_spec.2.2.1 init_state "Sam" (by decide) (by decide)).2.1⟩

/-- C6: save_medications applies the same comma-split, trim,
drop-empty-fragment rule as the passport fields and fully replaces the
medication list; on " aspirin ,  , ibuprofen" it yields exactly
["aspirin", "ibuprofen"]. -/
theorem save_medications_split_trim :
    (∀ (old1 old2 : List String) (t : String),
        save_medications old1 t = save_medications old2 t) ∧
    (∀ (old : List String) (p : Passport) (t x y : String),
        save_medications old t = (update_passport p t x y).immunizations) ∧
    (∀ old : List String,
        save_medications old " aspirin ,  , ibuprofen" = ["aspirin", "ibuprofen"]) :=
  ⟨fun _ _ _ => rfl, fun _ _ _ _ _ => rfl,
   fun _ => by show splitClean _ = _; decide⟩

/-- C7: the sorted roster listing is ordered by the key (date, shift)
ascending with the shift compared as a literal string, and it is a
permutation of the stored rows; concretely, three same-date entries come
out in the order Evening, Morning, Night (the alphabetical order of the
labels, not the chronological shift order). -/
theorem roster_sorted_by_literal_shift_order :
    (∀ roster : List RosterEntry,
        List.Sorted rosterLE (list_roster_sorted roster) ∧
        (list_roster_sorted roster).Perm roster) ∧
    list_roster_sorted
        [{ date := "2024-05-01", shift := "Morning", doctor := "A" },
         { date := "2024-05-01", shift := "Evening", doctor := "B" },
         { date := "2024-05-01", shift := "Night", doctor := "C" }]
      = [{ date := "2024-05-01", shift := "Evening", doctor := "B" },
         { date := "2024-05-01", shift := "Morning", doctor := "A" },
         { date := "2024-05-01", shift := "Night", doctor := "C" }] ∧
    (pyLtb "Evening" "Morning" = true ∧ pyLtb "Morning" "Night" = true) :=
  ⟨fun roster =>
      ⟨List.sorted_insertionSort rosterLE roster, List.perm_insertionSort rosterLE roster⟩,
   by decide, by decide, by decide⟩

/-- C8 counterexample: calling the Add / Update Patient handler directly
with age 999 (outside 0 to 120) and sex "X" (not an enumerated value)
does not fail — the record is inserted and the registry changes. -/
theorem upsert_patient_invalid_age_sex_applies :
    upsert_patient [] "P1" "Jane" 999 "X" "" ""
        = [{ id := "P1", name := "Jane", age := 999, sex := "X", allergies := "",
             comorbidities := "" }] ∧
    upsert_patient [] "P1" "Jane" 999 "X" "" "" ≠ [] ∧
    ¬ ((0 : Int) ≤ 999 ∧ (999 : Int) ≤ 120) ∧
    "X" ∉ (["M", "F", "Other"] : List String) :=
  ⟨rfl, by decide, by decide, by decide⟩

/-- C8 amended: the Add / Update Patient handler performs no validation
of age or sex — for every age and sex value, including ones outside the
declared range and enumeration, it removes the rows sharing the id and
appends the new record at the end, so the registry always changes. -/
theorem upsert_patient_no_validation :
    ∀ (df : List PatientRecord) (pid pname : String) (age : Int) (psex pall pcom : String),
      (upsert_patient df pid pname age psex pall pcom).length
          = (df.filter (fun r => r.id != pid)).length + 1 ∧
      (upsert_patient df pid pname age psex pall pcom).getLast?
          = some { id := pid, name := pname, age := age, sex := psex, allergies := pall,
                   comorbidities := pcom } ∧
      upsert_patient df pid pname age psex pall pcom ≠ [] := by
  intro df pid pname age psex pall pcom
  refine ⟨by simp [upsert_patient], upsert_getLast df pid pname age psex pall pcom, ?_⟩
  simp [upsert_patient]

/-- C9: export_passport is a function of the current state only — its
result depends on nothing but the active profile name and that profile's
stored passport — and for the freshly added profile "Sam", before any
passport update, it returns the document with the profile name and three
empty lists. -/
theorem export_passport_pure_and_default :
    (∀ s t : ConsumerState,
        s.active_profile = t.active_profile →
        s.passport s.active_profile = t.passport t.active_profile →
        export_passport s = export_passport t) ∧
    export_passport (select_active (add_profile init_state "Sam") "Sam")
      = some { profile := "Sam", immunizations := [], allergies := [], conditions := [] } := by
  constructor
  · intro s t h1 h2
    unfold export_passport
    rw [h1] at h2 ⊢
    rw [h2]
  · rfl

/-- C9 witness: the purity statement applied to the initial state and the
state after re-selecting the active profile "Me". -/
theorem export_passport_pure_witness :
    export_passport init_state = export_passport (select_active init_state "Me") :=
  export_passport_pure_and_default.1 init_state (select_active init_state "Me") rfl rfl

/-- C10: the session starts with exactly one profile, "Me", which is
active, whose vitals log, medication list and record list are empty and
whose passport is three empty lists; a profile name is registered exactly
when each of its four sub-collections exists, so every profile operation
is well-defined from the first interaction. -/
theorem init_state_spec :
    init_state.active_profile = "Me" ∧
    init_state.profiles = [("Me", { dob := none, gender := none })] ∧
    init_state.profiles.map Prod.fst = ["Me"] ∧
    init_state.vitals "Me" = some [] ∧
    init_state.meds "Me" = some [] ∧
    init_state.records "Me" = some [] ∧
    init_state.passport "Me" = some { immunizations := [], allergies := [], conditions := [] } ∧
    (∀ k : String,
        (k ∈ init_state.profiles.map Prod.fst ↔ (init_state.vitals k).isSome) ∧
        (k ∈ init_state.profiles.map Prod.fst ↔ (init_state.meds k).isSome) ∧
        (k ∈ init_state.profiles.map Prod.fst ↔ (init_state.records k).isSome) ∧
        (k ∈ init_state.profiles.map Prod.fst ↔ (init_state.passport k).isSome)) := by
  refine ⟨rfl, rfl, rfl, by decide, by decide, by decide, by decide, ?_⟩
  intro k
  refine ⟨?_, ?_, ?_, ?_⟩ <;>
    · by_cases h : k = "Me" <;> simp [init_state, h]

end Viatra
